import Mathlib

/-!
Shallow embedding of `nerv/layouts.py` (a Dash layout module): the
navigation shell (`navbar`), the directory index page (`index_layout`)
and the visualization view (`vis_layout`), together with proofs of the
behavioural properties claimed for them.

Widgets are modelled as plain structures recording exactly the
parameters the Python code computes from its inputs; the rendering
framework (Dash), the charting library (plotly express) and the
dataframe library (pandas) are external collaborators, so only the
values this module passes to them are embedded.
-/

/-! ### Python string comparison

Python compares strings lexicographically by Unicode code point.  A
Lean `String` is a list of `Char`s (code points), so the comparison is
embedded as lexicographic `Bool`-valued comparison of the `data`
lists. -/

def charListLe : List Char → List Char → Bool
  | [], _ => true
  | _ :: _, [] => false
  | a :: as, b :: bs => if a < b then true else if b < a then false else charListLe as bs

def strLe (a b : String) : Bool := charListLe a.data b.data

/-! ### pandas `Series.unique()`

`unique()` returns the distinct values of a column in first-seen
order.  Embedded recursively: keep the head, drop its later
duplicates, recurse. -/

def uniqueList : List String → List String
  | [] => []
  | x :: xs => x :: uniqueList (xs.filter (fun y => y ≠ x))
termination_by l => l.length
decreasing_by
  simp only [List.length_cons]
  exact Nat.lt_succ_of_le (List.length_filter_le _ _)

/-! ### Data model

One row of the results table (§3 of the spec): required columns
`Result` (numeric, `-1` is the sentinel), `Dataset-Pipeline`
(categorical) and `Color`.  Additional columns are hover metadata only
and play no role in any claimed property. -/

structure Row where
  result : Int
  datasetPipeline : String
  color : String
deriving DecidableEq, Repr

/-- `df["Dataset-Pipeline"].unique().tolist()` -/
def uniqueDP (df : List Row) : List String :=
  uniqueList (df.map (·.datasetPipeline))

/-- `df["Color"].unique().tolist()` -/
def uniqueColor (df : List Row) : List String :=
  uniqueList (df.map (·.color))

/-- The dict comprehension
`{k: v for k, v in zip(df["Dataset-Pipeline"].unique().tolist(), df["Color"].unique().tolist())}`
from `vis_layout`, embedded as an association list (`zip` truncates to
the shorter list, exactly as in Python; the keys produced by
`unique()` are distinct, so dict and association-list lookup agree). -/
def colorMap (df : List Row) : List (String × String) :=
  (uniqueDP df).zip (uniqueColor df)

/-- `df["Result"].max()`: maximum of the full, unfiltered `Result`
column.  Only evaluated on nonempty tables (pandas would give `NaN`
on an empty column; `vis_layout` fails earlier on an empty table). -/
def listMax : List Int → Int
  | [] => 0
  | [x] => x
  | x :: y :: t => max x (listMax (y :: t))

/-! ### navbar -/

structure ThemeDropdown where
  options : List (String × String)
  value : String
  clearable : Bool
  persistence : Bool
deriving DecidableEq, Repr

structure NavbarLayout where
  themeDropdown : ThemeDropdown
deriving DecidableEq, Repr

/-- `navbar()` from `nerv/layouts.py`.

The theme enumeration `DBC_THEMES` is imported from `nerv/utility.py`,
which is not part of this module; per the spec it is a fixed
enumerated mapping of theme names to theme-resource identifiers, here
passed as an association list with distinct keys (a Python dict in
insertion order).  Modelled from the spec: the dict indexing
`DBC_THEMES["BOOTSTRAP"]` raises `KeyError` when the key is absent,
embedded as the `Except.error` branch. -/
def navbar (themes : List (String × String)) : Except String NavbarLayout :=
  match themes.lookup "BOOTSTRAP" with
  | none => .error "KeyError: BOOTSTRAP"
  | some v =>
      .ok { themeDropdown :=
              { options := themes.map (fun p => (p.1, p.2))
                value := v
                clearable := false
                persistence := true } }

/-! ### index_layout -/

structure Card where
  title : String
  subtitle : String
deriving DecidableEq, Repr

structure LinkEntry where
  card : Card
  href : String
  id : String
deriving DecidableEq, Repr

structure IndexContainer where
  entries : List LinkEntry
  className : String
deriving DecidableEq, Repr

/-- `index_layout(path)` from `nerv/layouts.py`.

The filesystem is an external collaborator: `os.listdir(path)` is
passed in as `listing` (an arbitrary finite multiset of entry names in
arbitrary order), `os.path.getmtime(os.path.join(path, d))` as
`mtime`, and the locale-aware `datetime.fromtimestamp(...).strftime("%c")`
formatting as `fmtC`.  `sorted(...)` is Python's stable ascending sort
under code-point-lexicographic string comparison. -/
def index_layout (listing : List String) (mtime : String → Nat)
    (fmtC : Nat → String) : IndexContainer :=
  let dirs := List.insertionSort (fun a b => strLe a b = true) listing
  { entries :=
      dirs.map (fun d =>
        { card := { title := d
                    subtitle := "Last modified: " ++ fmtC (mtime d) }
          href := "/" ++ d
          id := d })
    className := "d-flex flex-row flex-wrap justify-content-center align-items-center" }

/-! ### vis_layout -/

structure HistFigure where
  data : List Row
  xColumn : String
  colorColumn : String
  colorDiscreteMap : List (String × String)
  barmode : String
  marginal : String
  xaxisRange : Int × Int
  rangesliderVisible : Bool
deriving DecidableEq, Repr

structure Dropdown where
  id : String
  options : List (String × String)
  value : String
  placeholder : String
deriving DecidableEq, Repr

structure ScatterFigure where
  data : List Row
  x : List Int
  y : List Int
  marginalX : String
  marginalY : String
  xaxisTitle : String
  yaxisTitle : String
  rangesliderVisible : Bool
deriving DecidableEq, Repr

structure VisLayout where
  histFigure : HistFigure
  xDropdown : Dropdown
  yDropdown : Dropdown
  scatterFigure : ScatterFigure
  tabLabels : List String
deriving DecidableEq, Repr

/-- The widget tree built by `vis_layout(df)` once the first (`d0`)
and last (`dlast`) distinct `Dataset-Pipeline` values exist: every
parameter the Python code passes to the chart/widget constructors. -/
def visWidgets (df : List Row) (d0 dlast : String) : VisLayout :=
  { histFigure :=
      { data := df.filter (fun r => r.result ≠ -1)
        xColumn := "Result"
        colorColumn := "Dataset-Pipeline"
        colorDiscreteMap := colorMap df
        barmode := "overlay"
        marginal := "rug"
        xaxisRange := (-1000, listMax (df.map (·.result)) + 1000)
        rangesliderVisible := true }
    xDropdown :=
      { id := "x"
        options := (uniqueDP df).zip (uniqueDP df)
        value := d0
        placeholder := "x" }
    yDropdown :=
      { id := "y"
        options := (uniqueDP df).zip (uniqueDP df)
        value := dlast
        placeholder := "y" }
    scatterFigure :=
      { data := df
        x := (df.filter (fun r => r.datasetPipeline = d0)).map (·.result)
        y := (df.filter (fun r => r.datasetPipeline = dlast)).map (·.result)
        marginalX := "histogram"
        marginalY := "histogram"
        xaxisTitle := d0
        yaxisTitle := dlast
        rangesliderVisible := true }
    tabLabels := ["Distribution Plot", "Joint Plot"] }

/-- `vis_layout(df)` from `nerv/layouts.py`.

The rows of the table are `df` in row order.  The function reads
`df["Dataset-Pipeline"].unique().tolist()[0]` and `...[-1]`, which
raise `IndexError` when the column has no values (empty table); that
is the only failure of the function itself (failures inside the
plotting collaborators are out of scope per the spec), embedded as the
`Except.error` branch.  `[-1]` on a nonempty Python list is its last
element, embedded as `getLastD`. -/
def vis_layout (df : List Row) : Except String VisLayout :=
  match uniqueDP df with
  | [] => .error "IndexError: list index out of range"
  | d0 :: ds => .ok (visWidgets df d0 ((d0 :: ds).getLastD ""))

/-! ### Invariants of the results table (§3 of the spec) -/

/-- The color-consistency half of the §3 invariant: rows sharing a
`Dataset-Pipeline` value share a `Color` value. -/
def Consistent (df : List Row) : Prop :=
  ∀ r ∈ df, ∀ s ∈ df, r.datasetPipeline = s.datasetPipeline → r.color = s.color

/-- The injectivity half of the §3 "bijection-like" invariant: rows
with different `Dataset-Pipeline` values have different `Color`
values. -/
def ColorInjective (df : List Row) : Prop :=
  ∀ r ∈ df, ∀ s ∈ df, r.color = s.color → r.datasetPipeline = s.datasetPipeline

/-- The `Color` value paired with a `Dataset-Pipeline` key on the
first row of the table that carries that key. -/
def firstColor (df : List Row) (k : String) : String :=
  ((df.find? (fun r => r.datasetPipeline = k)).map (·.color)).getD ""

/-! ### Properties of the embedded Python string comparison -/

theorem charListLe_iff_not_lt : ∀ x y : List Char, charListLe x y = true ↔ ¬ List.lt y x
  | [], y => by
      simp only [charListLe]
      exact ⟨fun _ h => (nomatch h), fun _ => trivial⟩
  | a :: as, [] => by
      simp only [charListLe]
      constructor
      · intro h; cases h
      · intro h; exact absurd (List.lt.nil a as) h
  | a :: as, b :: bs => by
      simp only [charListLe]
      by_cases hab : a < b
      · simp only [if_pos hab]
        refine ⟨fun _ h => ?_, fun _ => trivial⟩
        cases h with
        | head _ _ hba => exact lt_asymm hab hba
        | tail h1 h2 h3 => exact h2 hab
      · simp only [if_neg hab]
        by_cases hba : b < a
        · simp only [if_pos hba]
          constructor
          · intro h; cases h
          · intro h; exact absurd (List.lt.head _ _ hba) h
        · simp only [if_neg hba]
          rw [charListLe_iff_not_lt as bs]
          constructor
          · intro hn h
            cases h with
            | head _ _ h => exact hba h
            | tail h1 h2 h3 => exact hn h3
          · intro hn h3
            exact hn (List.lt.tail hba hab h3)

/-- `strLe` is the standard lexicographic order on `String`. -/
theorem strLe_iff {a b : String} : strLe a b = true ↔ a ≤ b := by
  rw [strLe, charListLe_iff_not_lt, List.lt_iff_lex_lt]
  have h1 : List.Lex (fun x1 x2 => x1 < x2) b.data a.data ↔ b < a := by
    rw [String.lt_iff_toList_lt]
    exact Iff.rfl
  rw [h1]
  exact not_lt

theorem strLe_total (a b : String) : strLe a b = true ∨ strLe b a = true := by
  rcases le_total a b with h | h
  · exact Or.inl (strLe_iff.mpr h)
  · exact Or.inr (strLe_iff.mpr h)

theorem strLe_trans {a b c : String} (h1 : strLe a b = true) (h2 : strLe b c = true) :
    strLe a c = true :=
  strLe_iff.mpr (le_trans (strLe_iff.mp h1) (strLe_iff.mp h2))

/-! ### Properties of `uniqueList` -/

theorem mem_uniqueList {a : String} {l : List String} : a ∈ uniqueList l ↔ a ∈ l := by
  induction l using uniqueList.induct with
  | case1 => simp [uniqueList]
  | case2 x xs ih =>
    simp only [uniqueList, List.mem_cons, ih, List.mem_filter]
    by_cases h : a = x <;> simp [h]

theorem nodup_uniqueList (l : List String) : (uniqueList l).Nodup := by
  induction l using uniqueList.induct with
  | case1 => simp [uniqueList]
  | case2 x xs ih =>
    rw [uniqueList, List.nodup_cons]
    refine ⟨fun hx => ?_, ih⟩
    have := List.mem_filter.mp (mem_uniqueList.mp hx)
    simp at this

theorem uniqueList_sublist (l : List String) : (uniqueList l).Sublist l := by
  induction l using uniqueList.induct with
  | case1 => simp [uniqueList]
  | case2 x xs ih =>
    rw [uniqueList]
    exact List.Sublist.cons₂ x (ih.trans (List.filter_sublist xs))

theorem uniqueList_eq_nil_iff {l : List String} : uniqueList l = [] ↔ l = [] := by
  cases l with
  | nil => simp [uniqueList]
  | cons x xs => simp [uniqueList]

theorem uniqueList_map (f : String → String) (l : List String)
    (hinj : ∀ a ∈ l, ∀ b ∈ l, f a = f b → a = b) :
    uniqueList (l.map f) = (uniqueList l).map f := by
  induction l using uniqueList.induct with
  | case1 => simp [uniqueList]
  | case2 x xs ih =>
    rw [List.map_cons, uniqueList, uniqueList, List.map_cons]
    congr 1
    rw [List.filter_map]
    have hfc : xs.filter ((fun y => y ≠ f x) ∘ f) = xs.filter (fun y => y ≠ x) := by
      refine List.filter_congr (fun y hy => ?_)
      simp only [Function.comp]
      refine decide_eq_decide.mpr ?_
      constructor
      · intro hne he; exact hne (he ▸ rfl)
      · intro hne he
        exact hne (hinj y (List.mem_cons_of_mem x hy) x (List.mem_cons_self x xs) he)
    rw [hfc]
    refine ih (fun a ha b hb hf => ?_)
    exact hinj a (List.mem_cons_of_mem x (List.mem_of_mem_filter ha))
      b (List.mem_cons_of_mem x (List.mem_of_mem_filter hb)) hf

/-! ### Properties of `listMax` -/

theorem le_listMax (l : List Int) : ∀ a ∈ l, a ≤ listMax l := by
  induction l using listMax.induct with
  | case1 => intro a ha; cases ha
  | case2 x => intro a ha; rw [List.mem_singleton] at ha; simp [listMax, ha]
  | case3 x y t ih =>
    intro a ha
    rcases List.mem_cons.mp ha with rfl | h
    · exact le_max_left _ _
    · exact (ih a h).trans (le_max_right _ _)

theorem listMax_mem (l : List Int) (h : l ≠ []) : listMax l ∈ l := by
  induction l using listMax.induct with
  | case1 => exact absurd rfl h
  | case2 x => simp [listMax]
  | case3 x y t ih =>
    rcases le_total x (listMax (y :: t)) with hc | hc
    · show max x (listMax (y :: t)) ∈ x :: y :: t
      rw [max_eq_right hc]
      exact List.mem_cons_of_mem x (ih (by simp))
    · show max x (listMax (y :: t)) ∈ x :: y :: t
      rw [max_eq_left hc]
      exact List.mem_cons_self x _

/-! ### Association-list helpers -/

theorem zip_map_self (g : String → String) (l : List String) :
    l.zip (l.map g) = l.map (fun a => (a, g a)) := by
  have := List.zip_map' id g l
  simpa using this

theorem lookup_map_self (g : String → String) (l : List String) (k : String)
    (h : k ∈ l) : List.lookup k (l.map (fun a => (a, g a))) = some (g k) := by
  induction l with
  | nil => cases h
  | cons a t ih =>
    rw [List.map_cons]
    by_cases hk : k = a
    · subst hk
      simp [List.lookup]
    · rw [List.lookup, beq_eq_false_iff_ne.mpr hk]
      exact ih (List.mem_of_ne_of_mem hk h)

/-! ### First-seen color lookup -/

theorem firstColor_eq (df : List Row) (hcons : Consistent df) (r : Row) (hr : r ∈ df) :
    firstColor df r.datasetPipeline = r.color := by
  unfold firstColor
  cases hf : df.find? (fun s => s.datasetPipeline = r.datasetPipeline) with
  | none =>
    exfalso
    have := List.find?_eq_none.mp hf r hr
    simp at this
  | some s =>
    have hs1 : s.datasetPipeline = r.datasetPipeline := by
      have := List.find?_some hf
      simpa using this
    have hs2 : s ∈ df := List.mem_of_find?_eq_some hf
    simp [hcons s hs2 r hr hs1]

theorem firstColor_mem (df : List Row) (k : String)
    (hk : k ∈ df.map (·.datasetPipeline)) :
    ∃ s ∈ df, s.datasetPipeline = k ∧ firstColor df k = s.color := by
  obtain ⟨r, hr, hrk⟩ := List.mem_map.mp hk
  cases hf : df.find? (fun s => s.datasetPipeline = k) with
  | none =>
    exfalso
    have := List.find?_eq_none.mp hf r hr
    simp [hrk] at this
  | some s =>
    refine ⟨s, List.mem_of_find?_eq_some hf, ?_, ?_⟩
    · have := List.find?_some hf
      simpa using this
    · simp [firstColor, hf]

/-! ### Inversion of `vis_layout` -/

theorem vis_layout_eq_ok {df : List Row} {d0 : String} {ds : List String}
    (heq : uniqueDP df = d0 :: ds) :
    vis_layout df = .ok (visWidgets df d0 ((d0 :: ds).getLastD "")) := by
  unfold vis_layout
  rw [heq]

theorem vis_layout_nil :
    vis_layout ([] : List Row) = .error "IndexError: list index out of range" := by
  have h : uniqueDP ([] : List Row) = [] := by simp [uniqueDP, uniqueList]
  unfold vis_layout
  rw [h]

theorem vis_layout_ok_inv {df : List Row} {w : VisLayout}
    (h : vis_layout df = .ok w) :
    ∃ d0 ds, uniqueDP df = d0 :: ds ∧ w = visWidgets df d0 ((d0 :: ds).getLastD "") := by
  cases heq : uniqueDP df with
  | nil =>
    unfold vis_layout at h
    rw [heq] at h
    cases h
  | cons d0 ds =>
    rw [vis_layout_eq_ok heq] at h
    injection h with h2
    exact ⟨d0, ds, rfl, h2.symm⟩

theorem zip_self_eq_map (l : List String) : l.zip l = l.map (fun a => (a, a)) := by
  induction l with
  | nil => rfl
  | cons x t ih => rw [List.zip_cons_cons, List.map_cons, ih]

theorem uniqueColor_eq_map_firstColor (df : List Row) (hcons : Consistent df)
    (hinj : ColorInjective df) :
    uniqueColor df = (uniqueDP df).map (firstColor df) := by
  have hmap : df.map (·.color) = (df.map (·.datasetPipeline)).map (firstColor df) := by
    rw [List.map_map]
    refine List.map_congr_left (fun r hr => ?_)
    simp only [Function.comp_apply]
    exact (firstColor_eq df hcons r hr).symm
  unfold uniqueColor uniqueDP
  rw [hmap]
  refine uniqueList_map (firstColor df) (df.map (·.datasetPipeline)) ?_
  intro a ha b hb hf
  obtain ⟨sa, hsa, hsak, hsac⟩ := firstColor_mem df a ha
  obtain ⟨sb, hsb, hsbk, hsbc⟩ := firstColor_mem df b hb
  have hcol : sa.color = sb.color := by rw [← hsac, ← hsbc, hf]
  have hdp := hinj sa hsa sb hsb hcol
  rw [← hsak, ← hsbk, hdp]

/-! ### Claims -/

/-- Claim C1 (amended): for every input table satisfying the full
bijection-like color invariant of §3 — rows sharing a
`Dataset-Pipeline` value share a `Color` value AND rows with different
`Dataset-Pipeline` values have different `Color` values — the color
mapping built by `vis_layout` assigns to each distinct
`Dataset-Pipeline` value exactly one color, namely the `Color` value
paired with that key on its first-seen row. -/
theorem c1_color_map_first_seen (df : List Row) (hcons : Consistent df)
    (hinj : ColorInjective df) :
    ∀ k ∈ uniqueDP df, (colorMap df).lookup k = some (firstColor df k) := by
  intro k hk
  unfold colorMap
  rw [uniqueColor_eq_map_firstColor df hcons hinj, zip_map_self]
  exact lookup_map_self _ _ _ hk

/-- Claim C1 witness: on a two-row table with consistent and injective
coloring, the key `"A"` is mapped to its first-seen color. -/
theorem c1_color_map_first_seen_witness :
    (colorMap [⟨1, "A", "red"⟩, ⟨2, "B", "blue"⟩]).lookup "A" =
      some (firstColor [⟨1, "A", "red"⟩, ⟨2, "B", "blue"⟩] "A") :=
  c1_color_map_first_seen _ (by unfold Consistent; decide)
    (by unfold ColorInjective; decide) "A" (by simp [uniqueDP, uniqueList])

/-- Claim C1 counterexample: the table
`[{Result 1, Dataset-Pipeline "A", Color "red"}, {Result 2, Dataset-Pipeline "B", Color "red"}]`
satisfies the color invariant as the claim states it (rows sharing a
`Dataset-Pipeline` value share a `Color`), yet the derived mapping
assigns no color at all to the distinct key `"B"`: `zip` pairs the
first-seen distinct keys with the first-seen distinct colors and drops
trailing keys when two keys share a color. -/
theorem c1_counterexample :
    Consistent [⟨1, "A", "red"⟩, ⟨2, "B", "red"⟩] ∧
    "B" ∈ uniqueDP [⟨1, "A", "red"⟩, ⟨2, "B", "red"⟩] ∧
    (colorMap [⟨1, "A", "red"⟩, ⟨2, "B", "red"⟩]).lookup "B" = none := by
  refine ⟨by unfold Consistent; decide, ?_, ?_⟩
  · simp [uniqueDP, uniqueList]
  · simp [colorMap, uniqueDP, uniqueColor, uniqueList, List.lookup]

/-- Claim C2: whenever `vis_layout` succeeds, the dataset underlying
the histogram is exactly the rows whose `Result` is not `-1` (same
rows, same order, nothing else dropped or kept), while the scatter
plot's dataframe is the full unfiltered table. -/
theorem c2_hist_excludes_sentinel (df : List Row) (w : VisLayout)
    (h : vis_layout df = .ok w) :
    w.histFigure.data = df.filter (fun r => r.result ≠ -1) ∧
    (∀ r : Row, r ∈ w.histFigure.data ↔ r ∈ df ∧ r.result ≠ -1) ∧
    w.scatterFigure.data = df := by
  obtain ⟨d0, ds, heq, rfl⟩ := vis_layout_ok_inv h
  refine ⟨rfl, fun r => ?_, rfl⟩
  show r ∈ df.filter (fun r => r.result ≠ -1) ↔ _
  simp [List.mem_filter]

/-- Claim C2 witness: on a table with one sentinel row, the histogram
dataset keeps only the non-sentinel row and the scatter dataframe
keeps both. -/
theorem c2_hist_excludes_sentinel_witness :
    vis_layout [⟨-1, "A", "red"⟩, ⟨5, "A", "red"⟩] =
      Except.ok (visWidgets [⟨-1, "A", "red"⟩, ⟨5, "A", "red"⟩] "A" "A") ∧
    (visWidgets [⟨-1, "A", "red"⟩, ⟨5, "A", "red"⟩] "A" "A").histFigure.data =
      [⟨5, "A", "red"⟩] ∧
    (visWidgets [⟨-1, "A", "red"⟩, ⟨5, "A", "red"⟩] "A" "A").scatterFigure.data =
      [⟨-1, "A", "red"⟩, ⟨5, "A", "red"⟩] := by
  have hEq : vis_layout [⟨-1, "A", "red"⟩, ⟨5, "A", "red"⟩] =
      Except.ok (visWidgets [⟨-1, "A", "red"⟩, ⟨5, "A", "red"⟩] "A" "A") :=
    vis_layout_eq_ok (show uniqueDP [⟨-1, "A", "red"⟩, ⟨5, "A", "red"⟩] = "A" :: []
      from by simp [uniqueDP, uniqueList])
  have h2 := c2_hist_excludes_sentinel _ _ hEq
  exact ⟨hEq, h2.1.trans (by decide), h2.2.2⟩

/-- Claim C3: whenever `vis_layout` succeeds, the histogram x-axis
range is `[-1000, m + 1000]` where `m` is the maximum of the full
unfiltered `Result` column (sentinel rows included): `m` bounds every
row's `Result` from above and is itself a value of the column. -/
theorem c3_hist_range (df : List Row) (w : VisLayout)
    (h : vis_layout df = .ok w) :
    w.histFigure.xaxisRange = (-1000, listMax (df.map (·.result)) + 1000) ∧
    (∀ r ∈ df, r.result ≤ listMax (df.map (·.result))) ∧
    listMax (df.map (·.result)) ∈ df.map (·.result) := by
  obtain ⟨d0, ds, heq, rfl⟩ := vis_layout_ok_inv h
  have hdf : df ≠ [] := by
    intro hdf
    rw [hdf] at heq
    simp [uniqueDP, uniqueList] at heq
  refine ⟨rfl, ?_, ?_⟩
  · intro r hr
    exact le_listMax _ _ (List.mem_map_of_mem _ hr)
  · refine listMax_mem _ (fun hm => hdf ?_)
    exact List.map_eq_nil_iff.mp hm

/-- Claim C3 witness: with `Result` values `5000` and the sentinel
`-1`, the unfiltered maximum is `5000` and the range is
`(-1000, 6000)`. -/
theorem c3_hist_range_witness :
    vis_layout [⟨5000, "A", "red"⟩, ⟨-1, "A", "red"⟩] =
      Except.ok (visWidgets [⟨5000, "A", "red"⟩, ⟨-1, "A", "red"⟩] "A" "A") ∧
    (visWidgets [⟨5000, "A", "red"⟩, ⟨-1, "A", "red"⟩] "A" "A").histFigure.xaxisRange =
      (-1000, 6000) := by
  have hEq : vis_layout [⟨5000, "A", "red"⟩, ⟨-1, "A", "red"⟩] =
      Except.ok (visWidgets [⟨5000, "A", "red"⟩, ⟨-1, "A", "red"⟩] "A" "A") :=
    vis_layout_eq_ok (show uniqueDP [⟨5000, "A", "red"⟩, ⟨-1, "A", "red"⟩] = "A" :: []
      from by simp [uniqueDP, uniqueList])
  have h3 := c3_hist_range _ _ hEq
  exact ⟨hEq, h3.1.trans (by decide)⟩

/-- Claim C4 counterexample: on a table whose `Dataset-Pipeline`
column has exactly one distinct value, `vis_layout` does NOT fail: it
returns a widget tree (a degenerate scatter with equal default
selections), refuting the claim that it fails with a descriptive
precondition error. -/
theorem c4_counterexample :
    (uniqueDP [⟨5, "A", "red"⟩]).length = 1 ∧
    (vis_layout [⟨5, "A", "red"⟩]).isOk = true := by
  constructor
  · simp [uniqueDP, uniqueList]
  · rw [vis_layout_eq_ok (show uniqueDP [⟨5, "A", "red"⟩] = "A" :: []
      from by simp [uniqueDP, uniqueList])]
    rfl

/-- Claim C4 (amended): `vis_layout` returns a widget tree for every
table whose `Dataset-Pipeline` column has at least one value — even a
single distinct value — and fails only on an empty table, with a
low-level index error (`IndexError` from `unique().tolist()[0]`)
rather than a descriptive precondition error. -/
theorem c4_degenerate_input (df : List Row) :
    ((vis_layout df).isOk = true ↔ df ≠ []) ∧
    vis_layout [] = Except.error "IndexError: list index out of range" := by
  refine ⟨⟨?_, ?_⟩, vis_layout_nil⟩
  · intro hok hdf
    subst hdf
    rw [vis_layout_nil] at hok
    cases hok
  · intro hdf
    cases hu : uniqueDP df with
    | nil =>
      exfalso
      have h1 : df.map (·.datasetPipeline) = [] := uniqueList_eq_nil_iff.mp hu
      exact hdf (List.map_eq_nil_iff.mp h1)
    | cons d0 ds =>
      rw [vis_layout_eq_ok hu]
      rfl

/-- Claim C5: whenever `vis_layout` succeeds on a table with at least
2 distinct `Dataset-Pipeline` values, the x-selector defaults to the
first distinct value in first-seen row order, the y-selector to the
last, and the scatter plot's axis titles equal those two defaults
(`uniqueDP` is the nodup sublist of the column listing each distinct
value at its first occurrence). -/
theorem c5_dropdown_defaults (df : List Row) (w : VisLayout)
    (h : vis_layout df = .ok w) (h2 : 2 ≤ (uniqueDP df).length) :
    w.xDropdown.value = (uniqueDP df).headD "" ∧
    w.yDropdown.value = (uniqueDP df).getLastD "" ∧
    w.scatterFigure.xaxisTitle = w.xDropdown.value ∧
    w.scatterFigure.yaxisTitle = w.yDropdown.value ∧
    (uniqueDP df).Nodup ∧ (uniqueDP df).Sublist (df.map (·.datasetPipeline)) := by
  obtain ⟨d0, ds, heq, rfl⟩ := vis_layout_ok_inv h
  exact ⟨by rw [heq]; rfl, by rw [heq]; rfl, rfl, rfl, nodup_uniqueList _,
    uniqueList_sublist _⟩

/-- Claim C5 witness: distinct values `["A", "B", "C"]` in first-seen
order give defaults `"A"` and `"C"` and matching axis titles. -/
theorem c5_dropdown_defaults_witness :
    vis_layout [⟨1, "A", "r"⟩, ⟨2, "B", "g"⟩, ⟨3, "C", "b"⟩] =
      Except.ok (visWidgets [⟨1, "A", "r"⟩, ⟨2, "B", "g"⟩, ⟨3, "C", "b"⟩] "A" "C") ∧
    (visWidgets [⟨1, "A", "r"⟩, ⟨2, "B", "g"⟩, ⟨3, "C", "b"⟩] "A" "C").xDropdown.value = "A" ∧
    (visWidgets [⟨1, "A", "r"⟩, ⟨2, "B", "g"⟩, ⟨3, "C", "b"⟩] "A" "C").yDropdown.value = "C" ∧
    (visWidgets [⟨1, "A", "r"⟩, ⟨2, "B", "g"⟩, ⟨3, "C", "b"⟩] "A" "C").scatterFigure.xaxisTitle = "A" ∧
    (visWidgets [⟨1, "A", "r"⟩, ⟨2, "B", "g"⟩, ⟨3, "C", "b"⟩] "A" "C").scatterFigure.yaxisTitle = "C" := by
  have hu : uniqueDP [⟨1, "A", "r"⟩, ⟨2, "B", "g"⟩, ⟨3, "C", "b"⟩] = "A" :: ["B", "C"] := by
    simp [uniqueDP, uniqueList]
  have hEq : vis_layout [⟨1, "A", "r"⟩, ⟨2, "B", "g"⟩, ⟨3, "C", "b"⟩] =
      Except.ok (visWidgets [⟨1, "A", "r"⟩, ⟨2, "B", "g"⟩, ⟨3, "C", "b"⟩] "A" "C") :=
    vis_layout_eq_ok hu
  have h5 := c5_dropdown_defaults _ _ hEq (by rw [hu]; decide)
  refine ⟨hEq, ?_, ?_, h5.2.2.1.trans ?_, h5.2.2.2.1.trans ?_⟩
  · rw [h5.1, hu]; rfl
  · rw [h5.2.1, hu]; rfl
  · rw [h5.1, hu]; rfl
  · rw [h5.2.1, hu]; rfl

/-- Claim C6: for every directory listing, the sequence of clickable
entries produced by `index_layout` is ordered ascending by the
code-point-lexicographic string order (`strLe`, shown equivalent to
`≤` on `String` by `strLe_iff`) and is a permutation of the listing:
no entry is dropped or added. -/
theorem c6_index_sorted (listing : List String) (mtime : String → Nat)
    (fmtC : Nat → String) :
    ((index_layout listing mtime fmtC).entries.map (·.id)).Perm listing ∧
    List.Sorted (· ≤ ·) ((index_layout listing mtime fmtC).entries.map (·.id)) := by
  have hids : (index_layout listing mtime fmtC).entries.map (·.id) =
      List.insertionSort (fun a b => strLe a b = true) listing := by
    show (List.map _ (List.insertionSort (fun a b => strLe a b = true) listing)).map _ = _
    rw [List.map_map]
    exact List.map_id _
  rw [hids]
  constructor
  · exact List.perm_insertionSort _ _
  · haveI : IsTotal String (fun a b => strLe a b = true) := ⟨strLe_total⟩
    haveI : IsTrans String (fun a b => strLe a b = true) :=
      ⟨fun a b c h1 h2 => strLe_trans h1 h2⟩
    have hs := List.sorted_insertionSort (fun a b => strLe a b = true) listing
    exact hs.imp (fun hab => strLe_iff.mp hab)

/-- Claim C7: whenever `vis_layout` succeeds, the x-selector and
y-selector carry identical option lists, equal to the full distinct
set of `Dataset-Pipeline` values with each option's label equal to its
value. -/
theorem c7_option_lists (df : List Row) (w : VisLayout)
    (h : vis_layout df = .ok w) :
    w.xDropdown.options = w.yDropdown.options ∧
    w.xDropdown.options = (uniqueDP df).map (fun v => (v, v)) ∧
    w.xDropdown.options.map (fun p => p.2) = uniqueDP df ∧
    ∀ p ∈ w.xDropdown.options, p.1 = p.2 := by
  obtain ⟨d0, ds, heq, rfl⟩ := vis_layout_ok_inv h
  refine ⟨rfl, zip_self_eq_map _, ?_, ?_⟩
  · show ((uniqueDP df).zip (uniqueDP df)).map (fun p => p.2) = uniqueDP df
    rw [zip_self_eq_map, List.map_map]
    exact List.map_id _
  · intro p hp
    rw [show (visWidgets df d0 ((d0 :: ds).getLastD "")).xDropdown.options =
        (uniqueDP df).zip (uniqueDP df) from rfl, zip_self_eq_map] at hp
    obtain ⟨a, _, rfl⟩ := List.mem_map.mp hp
    rfl

/-- Claim C7 witness: on a two-category table the two option lists
coincide and pair each distinct value with itself. -/
theorem c7_option_lists_witness :
    vis_layout [⟨1, "A", "r"⟩, ⟨2, "B", "g"⟩] =
      Except.ok (visWidgets [⟨1, "A", "r"⟩, ⟨2, "B", "g"⟩] "A" "B") ∧
    (visWidgets [⟨1, "A", "r"⟩, ⟨2, "B", "g"⟩] "A" "B").xDropdown.options =
      (visWidgets [⟨1, "A", "r"⟩, ⟨2, "B", "g"⟩] "A" "B").yDropdown.options ∧
    (visWidgets [⟨1, "A", "r"⟩, ⟨2, "B", "g"⟩] "A" "B").xDropdown.options =
      [("A", "A"), ("B", "B")] := by
  have hu : uniqueDP [⟨1, "A", "r"⟩, ⟨2, "B", "g"⟩] = "A" :: ["B"] := by
    simp [uniqueDP, uniqueList]
  have hEq : vis_layout [⟨1, "A", "r"⟩, ⟨2, "B", "g"⟩] =
      Except.ok (visWidgets [⟨1, "A", "r"⟩, ⟨2, "B", "g"⟩] "A" "B") :=
    vis_layout_eq_ok hu
  have h7 := c7_option_lists _ _ hEq
  refine ⟨hEq, h7.1, h7.2.1.trans ?_⟩
  rw [hu]; rfl

/-- Claim C8: for an empty directory listing, `index_layout` returns a
valid container holding an empty sequence of entries (its class name
intact), with no error. -/
theorem c8_empty_listing (mtime : String → Nat) (fmtC : Nat → String) :
    (index_layout [] mtime fmtC).entries = [] ∧
    (index_layout [] mtime fmtC).className =
      "d-flex flex-row flex-wrap justify-content-center align-items-center" :=
  ⟨rfl, rfl⟩

/-- Claim C9: the theme dropdown's initially selected value is the
theme-resource identifier mapped to `"BOOTSTRAP"` in the theme
enumeration, and `navbar` fails if and only if that key is absent. -/
theorem c9_theme_default (themes : List (String × String)) :
    (∀ w, navbar themes = Except.ok w →
        themes.lookup "BOOTSTRAP" = some w.themeDropdown.value) ∧
    ((∃ e, navbar themes = Except.error e) ↔ themes.lookup "BOOTSTRAP" = none) := by
  cases hl : themes.lookup "BOOTSTRAP" with
  | none =>
    constructor
    · intro w hw
      unfold navbar at hw
      rw [hl] at hw
      cases hw
    · simp [navbar, hl]
  | some v =>
    constructor
    · intro w hw
      unfold navbar at hw
      rw [hl] at hw
      injection hw with h2
      rw [← h2]
    · constructor
      · rintro ⟨e, he⟩
        unfold navbar at he
        rw [hl] at he
        cases he
      · intro h
        cases h

/-- Claim C9 witness: with `"BOOTSTRAP"` present in the enumeration,
`navbar` succeeds and the dropdown's value is its mapped resource. -/
theorem c9_theme_default_witness :
    List.lookup "BOOTSTRAP"
        [("BOOTSTRAP", "bootstrap.min.css"), ("DARKLY", "darkly.min.css")] =
      some "bootstrap.min.css" :=
  (c9_theme_default [("BOOTSTRAP", "bootstrap.min.css"), ("DARKLY", "darkly.min.css")]).1
    { themeDropdown :=
        { options := [("BOOTSTRAP", "bootstrap.min.css"), ("DARKLY", "darkly.min.css")]
          value := "bootstrap.min.css"
          clearable := false
          persistence := true } }
    rfl

/-- Claim C10: every entry name `d` of the directory listing yields a
clickable card in `index_layout` whose link is `"/" ++ d`, whose
component identifier is `d` itself, whose title is `d`, and whose
subtitle is the formatted modification time prefixed with
`"Last modified: "`. -/
theorem c10_card_contents (listing : List String) (mtime : String → Nat)
    (fmtC : Nat → String) (d : String) (hd : d ∈ listing) :
    ∃ e ∈ (index_layout listing mtime fmtC).entries,
      e.href = "/" ++ d ∧ e.id = d ∧ e.card.title = d ∧
      e.card.subtitle = "Last modified: " ++ fmtC (mtime d) := by
  have hmem : d ∈ List.insertionSort (fun a b => strLe a b = true) listing :=
    (List.perm_insertionSort _ _).mem_iff.mpr hd
  exact ⟨⟨⟨d, "Last modified: " ++ fmtC (mtime d)⟩, "/" ++ d, d⟩,
    List.mem_map_of_mem _ hmem, rfl, rfl, rfl, rfl⟩

/-- Claim C10 witness: in the listing `["beta", "alpha"]` with a
constant modification time and formatter, the entry `"alpha"` gets
link `"/alpha"`, identifier and title `"alpha"`, and the formatted
timestamp subtitle. -/
theorem c10_card_contents_witness :
    ∃ e ∈ (index_layout ["beta", "alpha"] (fun _ => 0) (fun _ => "stamp")).entries,
      e.href = "/" ++ "alpha" ∧ e.id = "alpha" ∧ e.card.title = "alpha" ∧
      e.card.subtitle = "Last modified: " ++ (fun _ : Nat => "stamp") ((fun _ : String => 0) "alpha") :=
  c10_card_contents ["beta", "alpha"] (fun _ => 0) (fun _ => "stamp") "alpha" (by simp)

/-- Claim C4 witness: the amended statement instantiated at a
one-distinct-value table. -/
theorem c4_degenerate_input_witness :
    ((vis_layout [⟨5, "A", "red"⟩]).isOk = true ↔ [(⟨5, "A", "red"⟩ : Row)] ≠ []) ∧
    vis_layout [] = Except.error "IndexError: list index out of range" :=
  c4_degenerate_input [⟨5, "A", "red"⟩]

/-- Claim C6 witness: the sorting statement instantiated at the
listing `["b", "a"]`. -/
theorem c6_index_sorted_witness :
    ((index_layout ["b", "a"] (fun _ => 0) (fun _ => "t")).entries.map (·.id)).Perm
      ["b", "a"] ∧
    List.Sorted (· ≤ ·)
      ((index_layout ["b", "a"] (fun _ => 0) (fun _ => "t")).entries.map (·.id)) :=
  c6_index_sorted ["b", "a"] (fun _ => 0) (fun _ => "t")

/-- Claim C8 witness: the empty-listing statement instantiated at
concrete collaborators. -/
theorem c8_empty_listing_witness :
    (index_layout [] (fun _ => 0) (fun _ => "t")).entries = [] ∧
    (index_layout [] (fun _ => 0) (fun _ => "t")).className =
      "d-flex flex-row flex-wrap justify-content-center align-items-center" :=
  c8_empty_listing (fun _ => 0) (fun _ => "t")
